import Mathlib

/-!
Verification of the WorkEase orchestration core against its specification.

Each section shallowly embeds one component of the Python source
(`src/core/...`) as executable Lean definitions: mutable objects become
explicit state records, `async` control flow becomes explicit sequencing,
Python `float` time stamps become rationals, fallible code returns
`Except`/`Option`.  Theorems at the end settle the specification claims
against these embeddings.
-/

namespace WorkEase

/-- Python exception value: the exception class name and its message. -/
structure PyExc where
  ty : String
  msg : String
deriving DecidableEq, Repr

/-- Python values appearing in event payloads (`dict[str, Any]` entries). -/
inductive PyVal where
  | vBool (b : Bool)
  | vStr (s : String)
  | vNum (q : ℚ)
deriving DecidableEq, Repr

/-- Payload dictionary `dict[str, Any]`, in insertion order. -/
abbrev PyDict := List (String × PyVal)

/-- Python `d.get(k)`: the value bound to `k`, if any (first binding; the
embeddings below never build duplicate keys). -/
def PyDict.get (d : PyDict) (k : String) : Option PyVal :=
  match d.find? (fun p => p.1 == k) with
  | some p => some p.2
  | none => none

/-! ## Event Bus (`src/core/event_bus.py`)

`EventBus` holds a single bounded `asyncio.Queue` (default capacity 1000).
`emit` is modelled as a function of the queue contents; the subscriber
registry and dispatch loop are modelled in the C7 section below. -/

namespace EventBus

/-- Outcome of `EventBus.emit` for the producer. -/
inductive EmitResult where
  /-- The event was enqueued; the new queue contents are returned. -/
  | ok (queue : List (String × PyDict))
  /-- `asyncio.QueueFull` propagates to the producer (fail fast). -/
  | raisesQueueFull
  /-- The producer's `await` suspends until a slot frees: the producer
  blocks and `emit` does not return. -/
  | blocksProducer
deriving Repr

/-- Semantics of `await asyncio.Queue.put(item)` on a queue with bound
`maxsize`: if the queue is full, `put` waits until a free slot is
available before adding the item (`asyncio.QueueFull` is raised only by
`put_nowait`, which the source does not use).  `maxsize = 0` means an
unbounded queue, as in asyncio.  `none` means the producer suspends. -/
def asyncioQueuePut (maxsize : Nat) (q : List (String × PyDict))
    (item : String × PyDict) : Option (List (String × PyDict)) :=
  if maxsize = 0 ∨ q.length < maxsize then some (q ++ [item]) else none

/-- `EventBus.emit(event, data)` (event_bus.py lines 40-56): the body is
`try: await self.queue.put((event, data)) except asyncio.QueueFull: raise`.
Since the awaited `put` never raises `QueueFull`, the `except` arm is
unreachable: `emit` either enqueues or suspends the producer. -/
def emit (maxsize : Nat) (q : List (String × PyDict))
    (event : String) (data : PyDict) : EmitResult :=
  match asyncioQueuePut maxsize q (event, data) with
  | some q2 => .ok q2
  | none => .blocksProducer

end EventBus

/-! ## Health Check Manager (`src/core/health_check.py`)

Each `HealthCheck.check()` catches every exception (including timeouts)
and returns a `HealthCheckResult`; only the `status` fields matter to the
aggregate, so `check_all` is modelled over the list of individual
statuses. -/

namespace HealthCheck

/-- `HealthStatus` enum. -/
inductive HealthStatus where
  | HEALTHY
  | DEGRADED
  | UNHEALTHY
deriving DecidableEq, Repr

open HealthStatus

/-- The aggregate status loop of `HealthCheckManager.check_all` (lines
292-311): start `HEALTHY`; an `UNHEALTHY` result forces `UNHEALTHY`; a
`DEGRADED` result downgrades `HEALTHY` to `DEGRADED`. -/
def check_all_status (results : List HealthStatus) : HealthStatus :=
  results.foldl
    (fun overall r =>
      if r = UNHEALTHY then UNHEALTHY
      else if r = DEGRADED ∧ overall = HEALTHY then DEGRADED
      else overall)
    HEALTHY

/-- `HealthCheckManager.check_readiness`: accepts `HEALTHY` or `DEGRADED`. -/
def check_readiness (results : List HealthStatus) : Bool :=
  check_all_status results = HEALTHY ∨ check_all_status results = DEGRADED

/-- `HealthCheckManager.check_liveness`: rejects only `UNHEALTHY`. -/
def check_liveness (results : List HealthStatus) : Bool :=
  check_all_status results ≠ UNHEALTHY

/-- The specification's aggregation rule, stated in its own words: the
worst individual status under `UNHEALTHY > DEGRADED > HEALTHY` (the empty
set of checks is `HEALTHY`). -/
def worstStatus (results : List HealthStatus) : HealthStatus :=
  if UNHEALTHY ∈ results then UNHEALTHY
  else if DEGRADED ∈ results then DEGRADED
  else HEALTHY

end HealthCheck

/-! ## Circuit Breaker (`src/core/circuit_breaker.py`)

The breaker object's mutable fields become a record; `time.time()` calls
become an explicit `now : ℚ` argument threaded to each method; the wrapped
call's outcome becomes a `succeeds : Bool` argument (the breaker only
observes whether `func` raised). -/

namespace CircuitBreaker

/-- `CircuitState` enum. -/
inductive CircuitState where
  | CLOSED
  | OPEN
  | HALF_OPEN
deriving DecidableEq, Repr

open CircuitState

/-- The `CircuitBreaker` object's configuration and mutable state. -/
structure Breaker where
  name : String
  failure_threshold : Nat
  success_threshold : Nat
  timeout_seconds : ℚ
  half_open_timeout : ℚ
  state : CircuitState
  failure_count : Nat
  success_count : Nat
  last_failure_time : Option ℚ
  last_state_change : ℚ
deriving DecidableEq, Repr

/-- `CircuitBreaker.__init__` at creation time `created`. -/
def Breaker.init (name : String) (failure_threshold success_threshold : Nat)
    (timeout_seconds half_open_timeout created : ℚ) : Breaker :=
  { name := name
    failure_threshold := failure_threshold
    success_threshold := success_threshold
    timeout_seconds := timeout_seconds
    half_open_timeout := half_open_timeout
    state := CLOSED
    failure_count := 0
    success_count := 0
    last_failure_time := none
    last_state_change := created }

/-- `CircuitBreaker._transition_to_open`. -/
def Breaker.transition_to_open (cb : Breaker) (now : ℚ) : Breaker :=
  { cb with state := OPEN, last_state_change := now }

/-- `CircuitBreaker._transition_to_half_open`: resets `success_count`. -/
def Breaker.transition_to_half_open (cb : Breaker) (now : ℚ) : Breaker :=
  { cb with state := HALF_OPEN, success_count := 0, last_state_change := now }

/-- `CircuitBreaker._transition_to_closed`: resets both counters. -/
def Breaker.transition_to_closed (cb : Breaker) (now : ℚ) : Breaker :=
  { cb with
    state := CLOSED
    failure_count := 0
    success_count := 0
    last_state_change := now }

/-- `CircuitBreaker._on_success` (lines 112-125). -/
def Breaker.on_success (cb : Breaker) (now : ℚ) : Breaker :=
  if cb.state = HALF_OPEN then
    let cb := { cb with success_count := cb.success_count + 1 }
    if cb.success_threshold ≤ cb.success_count then
      cb.transition_to_closed now
    else cb
  else
    { cb with failure_count := 0 }

/-- `CircuitBreaker._on_failure` (lines 127-142). -/
def Breaker.on_failure (cb : Breaker) (now : ℚ) : Breaker :=
  let cb := { cb with
    failure_count := cb.failure_count + 1
    last_failure_time := some now }
  if cb.state = HALF_OPEN then cb.transition_to_open now
  else if cb.failure_threshold ≤ cb.failure_count then cb.transition_to_open now
  else cb

/-- `CircuitBreaker._should_attempt_reset`.  `if not self.last_failure_time`
is Python falsiness: both `None` and `0.0` yield `False`. -/
def Breaker.should_attempt_reset (cb : Breaker) (now : ℚ) : Bool :=
  match cb.last_failure_time with
  | none => false
  | some t => if t = 0 then false else cb.timeout_seconds ≤ now - t

/-- The state check at the top of `CircuitBreaker.call` (lines 86-94):
returns the breaker after the lazy `OPEN → HALF_OPEN` transition and
whether the wrapped function is invoked (`false` = the call is rejected
with `CircuitBreakerError`). -/
def Breaker.check_state (cb : Breaker) (now : ℚ) : Breaker × Bool :=
  if cb.state = OPEN then
    if cb.should_attempt_reset now then (cb.transition_to_half_open now, true)
    else (cb, false)
  else (cb, true)

/-- How one `call` ends for the caller. -/
inductive CallResult where
  /-- The wrapped function ran and its result is returned. -/
  | value
  /-- `CircuitBreakerError`: the circuit rejected the call. -/
  | circuitOpenError
  /-- The wrapped function raised; the exception is re-raised. -/
  | funcError
deriving DecidableEq, Repr

/-- `CircuitBreaker.call` (lines 69-110) at time `now`, where the wrapped
function succeeds iff `succeeds`. -/
def Breaker.call (cb : Breaker) (now : ℚ) (succeeds : Bool) :
    Breaker × CallResult :=
  let checked := cb.check_state now
  if checked.2 then
    if succeeds then ((checked.1).on_success now, .value)
    else ((checked.1).on_failure now, .funcError)
  else (checked.1, .circuitOpenError)

/-- `n` consecutive calls at time `now`, all with the same outcome. -/
def Breaker.callN (cb : Breaker) (now : ℚ) (succeeds : Bool) : Nat → Breaker
  | 0 => cb
  | n + 1 => ((cb.callN now succeeds n).call now succeeds).1

/-! ### Circuit Breaker Manager -/

/-- `CircuitBreakerManager.breakers`: the name-keyed registry. -/
abbrev Manager := List (String × Breaker)

/-- Registry lookup (`self.breakers[name]` / `name in self.breakers`). -/
def Manager.find? (m : Manager) (name : String) : Option Breaker :=
  match List.find? (fun p => p.1 == name) m with
  | some p => some p.2
  | none => none

/-- `CircuitBreakerManager.get_or_create` (lines 227-255) at time `now`:
creates the breaker only if `name` is absent (note it never passes
`half_open_timeout`, so the default 30.0 applies), then returns
`self.breakers[name]`. -/
def Manager.get_or_create (m : Manager) (name : String)
    (failure_threshold success_threshold : Nat) (timeout_seconds now : ℚ) :
    Manager × Breaker :=
  match m.find? name with
  | some b => (m, b)
  | none =>
    let b := Breaker.init name failure_threshold success_threshold
      timeout_seconds 30 now
    (m ++ [(name, b)], b)

/-- One `get_or_create` request: name and the parameters passed with it. -/
structure Request where
  name : String
  failure_threshold : Nat
  success_threshold : Nat
  timeout_seconds : ℚ
  now : ℚ

/-- A sequence of `get_or_create` calls applied to the registry. -/
def Manager.runRequests (m : Manager) : List Request → Manager
  | [] => m
  | r :: rs =>
    ((m.get_or_create r.name r.failure_threshold r.success_threshold
      r.timeout_seconds r.now).1).runRequests rs

end CircuitBreaker

/-! ## Middleware Stack (`src/core/middleware.py`)

Every middleware class in the source, given one `(event, data)` pair and
its current state, does exactly one of: return its own result without
calling `call_next` (caching hit), raise (auth, rate limit), call
`call_next(event, data)` once and return its result re-raising errors
(logging, metrics, rate limit / caching on the pass-through path), or call
`call_next` once catching every exception (error handling).  `MWStep` is
that one-execution behaviour; each class's `process_event` is translated
into a `step` function computing it from the class's state. -/

namespace Middleware

/-- The behaviour of one middleware for one event. -/
inductive MWStep where
  /-- Return `result` without invoking `call_next` (short-circuit). -/
  | shortCircuit (result : PyDict)
  /-- Raise before invoking `call_next`. -/
  | raiseExc (e : PyExc)
  /-- Invoke `call_next(event, data)` once and return its result;
  exceptions propagate. -/
  | callNext
  /-- Invoke `call_next(event, data)` once; convert any exception into
  the error-handling middleware's structured failure payload. -/
  | catchAll

/-- A middleware: its behaviour as a function of the event and payload
(its state at execution time is baked into the closure, as in the source
where `process_event` reads `self`). -/
abbrev MW := String → PyDict → MWStep

/-- `ErrorHandlingMiddleware.process_event`'s `except` arm (lines
195-202): the structured failure payload built from the caught
exception. -/
def failure_payload (e : PyExc) (event : String) : PyDict :=
  [("success", .vBool false), ("error", .vStr e.msg),
   ("error_type", .vStr e.ty), ("event", .vStr event)]

/-- `MiddlewareStack.execute`'s recursive `build_chain` (lines 297-313),
instrumented: `handler i` running is recorded by index `i` in the trace,
and the count of terminal-handler invocations is returned.  `final` may
raise (`Except.error`). -/
def runFrom (final : String → PyDict → Except PyExc PyDict)
    (event : String) (data : PyDict) :
    List MW → Nat → Except PyExc PyDict × List Nat × Nat
  | [], _ => (final event data, [], 1)
  | mw :: rest, i =>
    match mw event data with
    | .shortCircuit r => (.ok r, [i], 0)
    | .raiseExc e => (.error e, [i], 0)
    | .callNext =>
      let (res, tr, c) := runFrom final event data rest (i + 1)
      (res, i :: tr, c)
    | .catchAll =>
      let (res, tr, c) := runFrom final event data rest (i + 1)
      match res with
      | .ok r => (.ok r, i :: tr, c)
      | .error e => (.ok (failure_payload e event), i :: tr, c)

/-- `MiddlewareStack.execute(event, data, final_handler)`: run the chain
from the outermost middleware (index 0, the first one added). -/
def execute (middlewares : List MW)
    (final : String → PyDict → Except PyExc PyDict)
    (event : String) (data : PyDict) :
    Except PyExc PyDict × List Nat × Nat :=
  runFrom final event data middlewares 0

/-! ### The concrete middlewares of `create_production_stack` -/

/-- `LoggingMiddleware.process_event`: logs, then
`result = await call_next(event, data)`, returns `result`. -/
def LoggingMiddleware.step : MW := fun _ _ => .callNext

/-- `MetricsMiddleware.process_event`: updates `self.metrics` around
`await call_next(event, data)`; returns the result unchanged and
re-raises any exception (`except ...: raise`), so its one-execution
behaviour is a pass-through. -/
def MetricsMiddleware.step : MW := fun _ _ => .callNext

/-- `ErrorHandlingMiddleware.process_event`: returns
`await call_next(event, data)`, converting any exception into
`failure_payload`. -/
def ErrorHandlingMiddleware.step : MW := fun _ _ => .catchAll

/-- `RateLimitMiddleware.process_event` (lines 118-145) with state
`request_counts` (timestamps per client key) at time `now`: drop
timestamps outside the window, raise `RuntimeError` when the window is
full, else call through (appending `now` to its own state, which cannot
affect this execution). -/
def RateLimitMiddleware.step (max_requests : Nat) (window_seconds : ℚ)
    (request_counts : List (PyVal × List ℚ)) (now : ℚ) : MW :=
  fun _ data =>
    let client_id := (data.get "client_id").getD (.vStr "default")
    let prev :=
      match request_counts.find? (fun p => p.1 == client_id) with
      | some p => p.2
      | none => []
    let recent := prev.filter (fun t => now - t < window_seconds)
    if max_requests ≤ recent.length then
      .raiseExc ⟨"RuntimeError", "Rate limit exceeded"⟩
    else .callNext

/-- `CachingMiddleware.process_event` (lines 162-183) with state `cache`
at time `now`.  The cache key is `f"{event}:{hash(frozenset(data.items()))}"`;
Python's `hash` is implementation-defined, so it is a parameter. -/
def CachingMiddleware.step (ttl_seconds : ℚ)
    (cache : List (String × PyDict × ℚ)) (payloadHash : PyDict → Int)
    (now : ℚ) : MW :=
  fun event data =>
    let cache_key := event ++ ":" ++ toString (payloadHash data)
    match cache.find? (fun p => p.1 == cache_key) with
    | some (_, cached_result, cached_time) =>
      if now - cached_time < ttl_seconds then .shortCircuit cached_result
      else .callNext
    | none => .callNext

/-- The middleware classes, for stating stack composition order. -/
inductive MiddlewareClass where
  | logging
  | metrics
  | errorHandling
  | rateLimit
  | caching
deriving DecidableEq, Repr

/-- The registration order of `create_production_stack` (lines 317-330):
`LoggingMiddleware`, `MetricsMiddleware`, `ErrorHandlingMiddleware`,
`RateLimitMiddleware(1000, 60)`, `CachingMiddleware(300)`. -/
def production_stack_classes : List MiddlewareClass :=
  [.logging, .metrics, .errorHandling, .rateLimit, .caching]

/-- `create_production_stack` as an executable stack, given the mutable
state of its rate limiter and cache at execution time (both are empty at
startup). -/
def create_production_stack (request_counts : List (PyVal × List ℚ))
    (cache : List (String × PyDict × ℚ)) (payloadHash : PyDict → Int)
    (now : ℚ) : List MW :=
  [LoggingMiddleware.step,
   MetricsMiddleware.step,
   ErrorHandlingMiddleware.step,
   RateLimitMiddleware.step 1000 60 request_counts now,
   CachingMiddleware.step 300 cache payloadHash now]

/-- A pass-through middleware (demo input for the C5 witness). -/
def mwPassDemo : MW := fun _ _ => .callNext

/-- A short-circuiting middleware (demo input for the C5 witness). -/
def mwBlockDemo : MW := fun _ _ => .shortCircuit []

/-- A terminal handler (demo input for the C5 witness). -/
def finalDemo : String → PyDict → Except PyExc PyDict := fun _ _ => .ok []

end Middleware

/-! ## Event Bus dispatch loop (`src/core/event_bus.py` lines 109-152)

Handlers are identified by `Nat` ids; `behaviour h d` is what handler `h`
does with payload `d`.  `subscribers` is the topic-keyed registry built by
`subscribe` (a `defaultdict(list)` appended to in subscription order). -/

namespace EventBus

/-- Handler behaviour: normal return or raised exception. -/
abbrev HandlerBehaviour := Nat → PyDict → Except PyExc Unit

/-- The subscriber registry: topic to handler ids, in subscription order. -/
abbrev Subscribers := List (String × List Nat)

/-- Handlers registered for a topic (`self.subscribers[event]`). -/
def Subscribers.handlers? (subs : Subscribers) (topic : String) :
    Option (List Nat) :=
  match subs.find? (fun p => p.1 == topic) with
  | some p => some p.2
  | none => none

/-- `EventBus._safe_handler_call` (lines 137-152): invoke the handler,
catch and log any exception, never re-raise.  Returns the recorded
invocation and the logged exception, if any. -/
def safe_handler_call (behaviour : HandlerBehaviour) (h : Nat)
    (data : PyDict) : List Nat × Option PyExc :=
  match behaviour h data with
  | .ok _ => ([h], none)
  | .error e => ([h], some e)

/-- Dispatch of one dequeued event (lines 120-128): look up the topic's
handlers and invoke each through `safe_handler_call` (concurrently in the
source, gathered with `return_exceptions=True`); no subscribers means no
calls.  Returns the handler invocations. -/
def dispatch (subs : Subscribers) (behaviour : HandlerBehaviour)
    (event : String × PyDict) : List Nat :=
  match subs.handlers? event.1 with
  | some hs => (hs.map (fun h => (safe_handler_call behaviour h event.2).1)).flatten
  | none => []

/-- `EventBus._process_events` over a queue of events: each event is
dequeued and dispatched in order; a handler fault never stops the loop
(it is swallowed inside `safe_handler_call`). -/
def process_events (subs : Subscribers) (behaviour : HandlerBehaviour)
    (queue : List (String × PyDict)) : List Nat :=
  (queue.map (dispatch subs behaviour)).flatten

/-- Handler behaviour where handler 0 always raises (demo input for the
C7 witness). -/
def behaviourDemo : HandlerBehaviour := fun h _ =>
  if h = 0 then .error ⟨"RuntimeError", "boom"⟩ else .ok ()

end EventBus

/-! ## Multi-Agent Coordinator (`src/core/multi_agent_coordinator.py`)

The sub-task loop of `execute_multi_step` (lines 98-131) is embedded with
the environment abstracted: `_execute_sub_task` routes through the
orchestrator and returns `{"success": ..., "data"/"error": ...}`, so its
outcome for the sub-task at index `i` is a parameter `outcome i`.  Result
payloads (`result.get("data")`) are an arbitrary type `δ`. -/

namespace Coordinator

/-- `SubTask` dataclass.  `parameters` is kept abstract in `δ` like the
result payloads. -/
structure SubTask (δ : Type) where
  id : String
  action : String
  target : String
  depends_on : Option String := none
  status : String := "pending"
  result : Option δ := none
  error : Option String := none
deriving DecidableEq, Repr

/-- What `_execute_sub_task` returned for one sub-task:
`{"success": True, "data": d}` or `{"success": False, "error": e}`. -/
inductive ExecOutcome (δ : Type) where
  | success (data : δ)
  | failure (error : String)
deriving DecidableEq, Repr

/-- `MultiStepCommand` dataclass (the fields the loop touches). -/
structure Command (δ : Type) where
  id : String
  original_command : String
  sub_tasks : List (SubTask δ)
  current_step : Nat := 0
  state : List (String × δ) := []
  status : String := "pending"
  error : Option String := none
deriving DecidableEq, Repr

/-- Python `dict` assignment `d[k] = v`: overwrite an existing binding,
else append. -/
def dictSet {δ : Type} (d : List (String × δ)) (k : String) (v : δ) :
    List (String × δ) :=
  if d.any (fun p => p.1 == k) then
    d.map (fun p => if p.1 == k then (k, v) else p)
  else d ++ [(k, v)]

/-- The `for i, sub_task in enumerate(sub_tasks)` loop of
`execute_multi_step` (lines 98-120) plus `_handle_failure` (lines
251-286): runs the remaining sub-tasks from absolute index `i`, keeping
the already-processed ones in `done` and the indices of executed
sub-tasks (those passed to `_execute_sub_task`) in `trace`.  On failure
`_handle_failure` sets the command status to `"failed"` and stops; after
the loop the status is `"completed"`. -/
def runLoop {δ : Type} (outcome : Nat → ExecOutcome δ) (cmd : Command δ)
    (i : Nat) (done : List (SubTask δ)) (trace : List Nat) :
    List (SubTask δ) → Command δ × List Nat
  | [] =>
    ({ cmd with sub_tasks := done, status := "completed" }, trace)
  | st :: rest =>
    let cmd := { cmd with current_step := i }
    let st := { st with status := "executing" }
    match outcome i with
    | .success d =>
      let st := { st with status := "completed", result := some d }
      let cmd := { cmd with state := dictSet cmd.state st.id d }
      runLoop outcome cmd (i + 1) (done ++ [st]) (trace ++ [i]) rest
    | .failure err =>
      let st := { st with status := "failed", error := some err }
      ({ cmd with
          sub_tasks := done ++ st :: rest
          status := "failed"
          error := some err }, trace ++ [i])

/-- `execute_multi_step` from the point where the command object holds its
decomposed `sub_tasks` (line 92, `command_obj.status = "executing"`)
through the loop. -/
def execute_multi_step {δ : Type} (outcome : Nat → ExecOutcome δ)
    (cmd : Command δ) : Command δ × List Nat :=
  runLoop outcome { cmd with status := "executing" } 0 [] [] cmd.sub_tasks

/-- The shared state an all-success run builds from index `i` on: one
entry per sub-task, keyed by its id, holding that sub-task's result. -/
def expectedStateFrom {δ : Type} (d : Nat → δ) :
    Nat → List (SubTask δ) → List (String × δ)
  | _, [] => []
  | i, stk :: rest => (stk.id, d i) :: expectedStateFrom d (i + 1) rest

end Coordinator

/-! ## Intent Router confidence gate

The Intent Router described in spec §4.2 (`process_intent`, confidence
gating, clarification events) is not present under `src/`: only its
callers exist (`src/core/main.py` passes `confidence_threshold` to a
constructor that does not accept it, and
`src/core/multi_agent_coordinator.py` calls a `route_to_agent` method that
no class under `src/` defines).  The gate is therefore modelled from the
spec. -/

namespace Router

/-- Intent as routed: action, target, confidence (spec §3). -/
structure RouterIntent where
  action : String
  target : String
  confidence : ℚ
deriving DecidableEq, Repr

/-- What the router does with one classified intent. -/
inductive RouterDecision where
  /-- A clarification-request event is emitted; routing stops. -/
  | clarificationRequest
  /-- The intent is published on the given topic. -/
  | publish (topic : String)
deriving DecidableEq, Repr

/-- Modelled from the spec: steps (4)-(5) of the Intent Router algorithm
(spec §4.2), whose implementation is missing from `src/`: "if
`confidence < threshold`, emit a clarification-request event and stop;
otherwise publish `agent.<target>.<action>` on the Event Bus". -/
def process_intent_route (threshold : ℚ) (i : RouterIntent) : RouterDecision :=
  if i.confidence < threshold then .clarificationRequest
  else .publish ("agent." ++ i.target ++ "." ++ i.action)

/-- Default confidence threshold (spec §3: "default 0.7"). -/
def confidence_threshold_default : ℚ := 7/10

end Router

/-! ## LLM Client intent parsing (`src/core/llm_client.py`)

`OllamaLLMClient.understand_intent` submits a prompt and then parses the
response string (lines 248-273).  The parse step is embedded over the
response; `json.loads` is modelled by a recursive-descent parser for the
JSON grammar (restricted model: no `\uXXXX` string escapes, leading-zero
numbers accepted), returning `JSONDecodeError` on failure, and Python's
`float(...)` conversion of the decoded value is modelled by `pyFloat`
(restricted model: no `inf`/`nan`/underscore literals). -/

namespace LLMClient

/-- A decoded JSON value (what `json.loads` produces). -/
inductive JVal where
  | null
  | jbool (b : Bool)
  | num (q : ℚ)
  | str (s : String)
  | arr (xs : List JVal)
  | obj (fields : List (String × JVal))
deriving Repr

/-- The character `{`. -/
def braceOpen : Char := Char.ofNat 123

/-- The character `}`. -/
def braceClose : Char := Char.ofNat 125

/-- Python `s.find(c)`: first index of `c`, or `-1`. -/
def pyFindChar (cs : List Char) (c : Char) : Int :=
  match cs.findIdx? (fun x => x == c) with
  | some i => (i : Int)
  | none => -1

/-- Python `s.rfind(c)`: last index of `c`, or `-1`. -/
def pyRFindChar (cs : List Char) (c : Char) : Int :=
  match cs.reverse.findIdx? (fun x => x == c) with
  | some i => ((cs.length - 1 - i : Nat) : Int)
  | none => -1

/-- Python slice `s[a:b]` for `0 ≤ a ≤ b`. -/
def pySlice (cs : List Char) (a b : Int) : List Char :=
  (cs.take b.toNat).drop a.toNat

/-- Skip JSON whitespace. -/
def jsonSkipWs (cs : List Char) : List Char :=
  cs.dropWhile (fun c => c == ' ' || c == '\t' || c == '\n' || c == '\r')

/-- Split a leading run of decimal digits off, as digit values. -/
def takeDigits : List Char → List Nat × List Char
  | [] => ([], [])
  | c :: cs =>
    if c.isDigit then
      let (ds, r) := takeDigits cs
      ((c.toNat - 48) :: ds, r)
    else ([], c :: cs)

/-- The number denoted by a digit-value list. -/
def digitsToNat (ds : List Nat) : Nat :=
  ds.foldl (fun a d => a * 10 + d) 0

/-- Parse a JSON number (into an exact rational). -/
def parseJsonNumber (cs : List Char) : Option (ℚ × List Char) :=
  let (neg, cs1) :=
    match cs with
    | c :: r => if c == '-' then (true, r) else (false, cs)
    | [] => (false, cs)
  match takeDigits cs1 with
  | ([], _) => none
  | (ids, cs2) =>
    let ipart : ℚ := (digitsToNat ids : ℚ)
    let (fpart, cs3) :=
      match cs2 with
      | c :: r =>
        if c == '.' then
          match takeDigits r with
          | ([], _) => ((0 : ℚ), cs2)
          | (fds, r2) => ((digitsToNat fds : ℚ) / (10 : ℚ) ^ fds.length, r2)
        else ((0 : ℚ), cs2)
      | [] => ((0 : ℚ), cs2)
    let (epart, cs4) :=
      match cs3 with
      | c :: r =>
        if c == 'e' || c == 'E' then
          let (esign, r1) :=
            match r with
            | c2 :: r2 =>
              if c2 == '-' then ((-1 : ℤ), r2)
              else if c2 == '+' then ((1 : ℤ), r2)
              else ((1 : ℤ), r)
            | [] => ((1 : ℤ), r)
          match takeDigits r1 with
          | ([], _) => ((0 : ℤ), cs3)
          | (eds, r2) => (esign * (digitsToNat eds : ℤ), r2)
        else ((0 : ℤ), cs3)
      | [] => ((0 : ℤ), cs3)
    let mag : ℚ := (ipart + fpart) * (10 : ℚ) ^ epart
    some (if neg then -mag else mag, cs4)

/-- Parse the body of a JSON string after the opening quote, up to and
consuming the closing quote. -/
def parseJsonStringBody : Nat → List Char → Option (List Char × List Char)
  | 0, _ => none
  | _, [] => none
  | fuel + 1, c :: r =>
    if c == '"' then some ([], r)
    else if c == '\\' then
      match r with
      | [] => none
      | e :: r2 =>
        let ec : Option Char :=
          if e == '"' then some '"'
          else if e == '\\' then some '\\'
          else if e == '/' then some '/'
          else if e == 'b' then some (Char.ofNat 8)
          else if e == 'f' then some (Char.ofNat 12)
          else if e == 'n' then some '\n'
          else if e == 'r' then some '\r'
          else if e == 't' then some '\t'
          else none
        match ec with
        | some ch =>
          match parseJsonStringBody fuel r2 with
          | some (s, rest) => some (ch :: s, rest)
          | none => none
        | none => none
    else
      match parseJsonStringBody fuel r with
      | some (s, rest) => some (c :: s, rest)
      | none => none

/-- Consume an expected literal tail (for `true`, `false`, `null`). -/
def dropLit : List Char → List Char → Option (List Char)
  | [], cs => some cs
  | l :: ls, c :: cs => if c == l then dropLit ls cs else none
  | _ :: _, [] => none

mutual

/-- Parse one JSON value (fuel-bounded recursive descent). -/
def parseJsonValue (fuel : Nat) (cs : List Char) :
    Option (JVal × List Char) :=
  match fuel with
  | 0 => none
  | fuel + 1 =>
    match jsonSkipWs cs with
    | [] => none
    | c :: r =>
      if c == braceOpen then parseJsonMembers fuel (jsonSkipWs r) [] true
      else if c == '[' then parseJsonItems fuel (jsonSkipWs r) [] true
      else if c == '"' then
        match parseJsonStringBody (r.length + 1) r with
        | some (s, rest) => some (.str (String.mk s), rest)
        | none => none
      else if c == 't' then
        match dropLit ['r', 'u', 'e'] r with
        | some rest => some (.jbool true, rest)
        | none => none
      else if c == 'f' then
        match dropLit ['a', 'l', 's', 'e'] r with
        | some rest => some (.jbool false, rest)
        | none => none
      else if c == 'n' then
        match dropLit ['u', 'l', 'l'] r with
        | some rest => some (.null, rest)
        | none => none
      else
        match parseJsonNumber (c :: r) with
        | some (q, rest) => some (.num q, rest)
        | none => none

/-- Parse the members of a JSON object after the opening brace (`first`
allows an immediately closing empty object; a trailing comma is a parse
error, as in Python). -/
def parseJsonMembers (fuel : Nat) (cs : List Char)
    (acc : List (String × JVal)) (first : Bool) :
    Option (JVal × List Char) :=
  match fuel with
  | 0 => none
  | fuel + 1 =>
    match cs with
    | [] => none
    | c :: r =>
      if first && (c == braceClose) then some (.obj acc, r)
      else if c == '"' then
        match parseJsonStringBody (r.length + 1) r with
        | none => none
        | some (k, r1) =>
          match jsonSkipWs r1 with
          | ':' :: r2 =>
            match parseJsonValue fuel r2 with
            | none => none
            | some (v, r3) =>
              match jsonSkipWs r3 with
              | ',' :: r4 =>
                parseJsonMembers fuel (jsonSkipWs r4)
                  (acc ++ [(String.mk k, v)]) false
              | c2 :: r4 =>
                if c2 == braceClose then
                  some (.obj (acc ++ [(String.mk k, v)]), r4)
                else none
              | [] => none
          | _ => none
      else none

/-- Parse the items of a JSON array after the opening bracket. -/
def parseJsonItems (fuel : Nat) (cs : List Char) (acc : List JVal)
    (first : Bool) : Option (JVal × List Char) :=
  match fuel with
  | 0 => none
  | fuel + 1 =>
    match cs with
    | [] => none
    | c :: _ =>
      if first && (c == ']') then some (.arr acc, cs.tail)
      else
        match parseJsonValue fuel cs with
        | none => none
        | some (v, r1) =>
          match jsonSkipWs r1 with
          | ',' :: r2 => parseJsonItems fuel (jsonSkipWs r2) (acc ++ [v]) false
          | c2 :: r2 => if c2 == ']' then some (.arr (acc ++ [v]), r2) else none
          | [] => none

end

/-- `json.loads`: parse the whole string (trailing non-whitespace is
`Extra data`). -/
def pyJsonLoads (s : String) : Except PyExc JVal :=
  match parseJsonValue (s.length + 8) s.toList with
  | some (v, rest) =>
    if (jsonSkipWs rest).isEmpty then .ok v
    else .error ⟨"JSONDecodeError", "Extra data"⟩
  | none => .error ⟨"JSONDecodeError", "Expecting value"⟩

/-- Python `data.get(k, default)` on a decoded JSON object (later
duplicate keys win, as in `dict`). -/
def jsonObjGet (fields : List (String × JVal)) (k : String) (dflt : JVal) :
    JVal :=
  match fields.reverse.find? (fun p => p.1 == k) with
  | some p => p.2
  | none => dflt

/-- Python `float(s)` on a string: optional surrounding whitespace and
sign, then `digits[.digits][exp]` or `.digits[exp]`. -/
def pyFloatString (s : String) : Option ℚ :=
  let cs := ((s.toList.dropWhile Char.isWhitespace).reverse.dropWhile
    Char.isWhitespace).reverse
  let (neg, cs1) :=
    match cs with
    | c :: r =>
      if c == '-' then (true, r)
      else if c == '+' then (false, r)
      else (false, cs)
    | [] => (false, cs)
  let (ids, cs2) := takeDigits cs1
  let (fpart, cs3, fracDigits) :=
    match cs2 with
    | '.' :: r =>
      match takeDigits r with
      | ([], r2) => ((0 : ℚ), r2, false)
      | (fds, r2) => ((digitsToNat fds : ℚ) / (10 : ℚ) ^ fds.length, r2, true)
    | _ => ((0 : ℚ), cs2, false)
  let expRes : Option (ℤ × List Char) :=
    match cs3 with
    | c :: r =>
      if c == 'e' || c == 'E' then
        let (esign, r1) :=
          match r with
          | c2 :: r2 =>
            if c2 == '-' then ((-1 : ℤ), r2)
            else if c2 == '+' then ((1 : ℤ), r2)
            else ((1 : ℤ), r)
          | [] => ((1 : ℤ), r)
        match takeDigits r1 with
        | ([], _) => none
        | (eds, r2) => some (esign * (digitsToNat eds : ℤ), r2)
      else some (0, cs3)
    | [] => some (0, cs3)
  match expRes with
  | none => none
  | some (e, rest) =>
    if rest.isEmpty && (decide (ids ≠ []) || fracDigits) then
      let mag := ((digitsToNat ids : ℚ) + fpart) * (10 : ℚ) ^ e
      some (if neg then -mag else mag)
    else none

/-- Python `float(x)` on a decoded JSON value: numbers and booleans
convert; strings parse or raise `ValueError`; `None`, lists and dicts
raise `TypeError`. -/
def pyFloat : JVal → Except PyExc ℚ
  | .num q => .ok q
  | .jbool b => .ok (if b then 1 else 0)
  | .str s =>
    match pyFloatString s with
    | some q => .ok q
    | none => .error ⟨"ValueError", "could not convert string to float: " ++ s⟩
  | .null =>
    .error ⟨"TypeError",
      "float() argument must be a string or a real number, not NoneType"⟩
  | .arr _ =>
    .error ⟨"TypeError",
      "float() argument must be a string or a real number, not list"⟩
  | .obj _ =>
    .error ⟨"TypeError",
      "float() argument must be a string or a real number, not dict"⟩

/-- `Intent` dataclass.  `action`, `target` and `parameters` receive the
decoded JSON values unchanged (the dataclass performs no conversion);
`confidence` is the result of `float(...)`. -/
structure Intent where
  action : JVal
  target : JVal
  parameters : JVal
  confidence : ℚ
  raw_command : String
deriving Repr

/-- The fallback `Intent(action="unknown", ..., confidence=0.1)` (lines
266-273). -/
def fallbackIntent (user_input : String) : Intent :=
  { action := .str "unknown"
    target := .str "unknown"
    parameters := .obj []
    confidence := 1/10
    raw_command := user_input }

/-- The parse step of `OllamaLLMClient.understand_intent` (lines
248-273), from the response string: find the outermost braces, try
`json.loads` on the slice, build the `Intent` on success; only
`json.JSONDecodeError` is caught (the `except` arm is `pass`, falling
through to the fallback), so errors raised by `float(...)` propagate.
(As shipped, the method body is missing the `prompt = f"""...` assignment
before line 234, a syntax slip noted in the results; the parse section is
embedded as written.) -/
def understand_intent_parse (user_input response : String) :
    Except PyExc Intent :=
  let cs := response.toList
  let json_start := pyFindChar cs braceOpen
  let json_end := pyRFindChar cs braceClose + 1
  if json_start ≠ -1 ∧ json_end > json_start then
    let json_str := String.mk (pySlice cs json_start json_end)
    match pyJsonLoads json_str with
    | .error _ => .ok (fallbackIntent user_input)
    | .ok (.obj data) =>
      match pyFloat (jsonObjGet data "confidence" (.num (1/2))) with
      | .ok c =>
        .ok { action := jsonObjGet data "action" (.str "unknown")
              target := jsonObjGet data "target" (.str "unknown")
              parameters := jsonObjGet data "parameters" (.obj [])
              confidence := c
              raw_command := user_input }
      | .error e => .error e
    | .ok _ => .error ⟨"AttributeError", "no attribute get"⟩
  else .ok (fallbackIntent user_input)

end LLMClient

/-! # Claim theorems -/

open EventBus HealthCheck CircuitBreaker Middleware Coordinator Router LLMClient

/-- C1: the claim states that `emit` on a bus whose queue already holds
`max_queue_size` undrained events fails fast with a `QueueFull` signal
reported synchronously to the producer, neither blocking nor dropping.
The code instead awaits `queue.put`, which suspends the producer until a
slot frees: `emit` blocks and `asyncio.QueueFull` is never raised (it is
raised only by `put_nowait`), contradicting `emit`'s own docstring
("Raises asyncio.QueueFull: If queue is at max capacity"). -/
theorem C1_emit_blocks_when_queue_full (maxsize : Nat)
    (q : List (String × PyDict)) (event : String) (data : PyDict)
    (hm : 0 < maxsize) (hq : q.length = maxsize) :
    EventBus.emit maxsize q event data = .blocksProducer ∧
    EventBus.emit maxsize q event data ≠ .raisesQueueFull := by
  have h0 : ¬ (maxsize = 0 ∨ q.length < maxsize) := by omega
  simp [EventBus.emit, asyncioQueuePut, h0]

/-- Witness for C1 at a bus of capacity 2 whose queue holds 2 events. -/
theorem C1_emit_blocks_when_queue_full_witness :
    EventBus.emit 2 [("a", []), ("b", [])] "t" [] = .blocksProducer ∧
    EventBus.emit 2 [("a", []), ("b", [])] "t" [] ≠ .raisesQueueFull :=
  C1_emit_blocks_when_queue_full 2 [("a", []), ("b", [])] "t" []
    (by decide) (by decide)

/-- C4: an intent whose confidence is below the threshold is answered
with a clarification request and is never published on any topic (in
particular on no `agent.*` topic).  The Intent Router is modelled from
the spec, its implementation being absent from `src/`. -/
theorem C4_low_confidence_gating (threshold : ℚ) (i : RouterIntent)
    (h : i.confidence < threshold) :
    process_intent_route threshold i = .clarificationRequest ∧
    ∀ topic, process_intent_route threshold i ≠ .publish topic := by
  simp [process_intent_route, h]

/-- Witness for C4 at the default threshold 0.7 and confidence 0.5. -/
theorem C4_low_confidence_gating_witness :
    process_intent_route confidence_threshold_default
      ⟨"send", "gmail", 1/2⟩ = .clarificationRequest :=
  (C4_low_confidence_gating confidence_threshold_default
    ⟨"send", "gmail", 1/2⟩ (by norm_num [confidence_threshold_default])).1

/-! ### C9: health aggregation -/

namespace HealthCheck

open HealthStatus

/-- The fold from an `UNHEALTHY` accumulator is constantly `UNHEALTHY`. -/
theorem check_all_from_unhealthy (l : List HealthStatus) :
    l.foldl
      (fun overall r =>
        if r = UNHEALTHY then UNHEALTHY
        else if r = DEGRADED ∧ overall = HEALTHY then DEGRADED
        else overall)
      UNHEALTHY = UNHEALTHY := by
  induction l with
  | nil => rfl
  | cons r l ih => cases r <;> simpa using ih

/-- The fold from a `DEGRADED` accumulator is `UNHEALTHY` iff some
result is `UNHEALTHY`. -/
theorem check_all_from_degraded (l : List HealthStatus) :
    l.foldl
      (fun overall r =>
        if r = UNHEALTHY then UNHEALTHY
        else if r = DEGRADED ∧ overall = HEALTHY then DEGRADED
        else overall)
      DEGRADED = if UNHEALTHY ∈ l then UNHEALTHY else DEGRADED := by
  induction l with
  | nil => rfl
  | cons r l ih =>
    cases r <;> simp [check_all_from_unhealthy, ih]

end HealthCheck

/-- C9: `check_all`'s aggregate status is the worst individual status
under `UNHEALTHY > DEGRADED > HEALTHY`; `check_readiness` is true exactly
when that worst status is `HEALTHY` or `DEGRADED`, and `check_liveness`
is false exactly when it is `UNHEALTHY`. -/
theorem C9_health_aggregation (results : List HealthStatus) :
    check_all_status results = worstStatus results ∧
    (check_readiness results = true ↔
      (worstStatus results = .HEALTHY ∨ worstStatus results = .DEGRADED)) ∧
    (check_liveness results = false ↔ worstStatus results = .UNHEALTHY) := by
  have hmain : check_all_status results = worstStatus results := by
    induction results with
    | nil => rfl
    | cons r l ih =>
      cases r <;>
        simp [check_all_status, worstStatus,
          HealthCheck.check_all_from_unhealthy,
          HealthCheck.check_all_from_degraded] at ih ⊢ <;>
        split_ifs <;> simp_all
  refine ⟨hmain, ?_, ?_⟩
  · simp [check_readiness, hmain]
  · simp [check_liveness, hmain]

/-! ### C10: manager parameter immutability -/

namespace CircuitBreaker

/-- A registry binding survives appending further entries. -/
theorem Manager.find?_append_left (m l : Manager) (name : String)
    (b : Breaker) (h : m.find? name = some b) :
    (m ++ l).find? name = some b := by
  induction m with
  | nil => simp [Manager.find?, List.find?] at h
  | cons p m ih =>
    by_cases hc : p.1 == name
    · simpa [Manager.find?, List.find?, hc] using h
    · simp only [Bool.not_eq_true] at hc
      simp only [Manager.find?, List.cons_append, List.find?, hc] at h ⊢
      exact ih h

/-- A fresh name binds to the appended entry. -/
theorem Manager.find?_append_fresh (m : Manager) (name : String)
    (b : Breaker) (h : m.find? name = none) :
    (m ++ [(name, b)]).find? name = some b := by
  induction m with
  | nil => simp [Manager.find?, List.find?]
  | cons p m ih =>
    by_cases hc : p.1 == name
    · simp [Manager.find?, List.find?, hc] at h
    · simp only [Bool.not_eq_true] at hc
      simp only [Manager.find?, List.cons_append, List.find?, hc] at h ⊢
      exact ih h

/-- `get_or_create` never disturbs an existing binding. -/
theorem Manager.get_or_create_preserves (m : Manager) (n' : String)
    (ft st : Nat) (tos now : ℚ) (name : String) (b : Breaker)
    (h : m.find? name = some b) :
    ((m.get_or_create n' ft st tos now).1).find? name = some b := by
  unfold Manager.get_or_create
  cases hfind : m.find? n' with
  | some b2 => simpa using h
  | none => exact Manager.find?_append_left m _ name b h

/-- A sequence of `get_or_create` calls never disturbs an existing
binding. -/
theorem Manager.runRequests_preserves (reqs : List Request) :
    ∀ (m : Manager) (name : String) (b : Breaker),
      m.find? name = some b → (m.runRequests reqs).find? name = some b := by
  induction reqs with
  | nil => intro m name b h; simpa [Manager.runRequests] using h
  | cons r rs ih =>
    intro m name b h
    exact ih _ name b (Manager.get_or_create_preserves m r.name
      r.failure_threshold r.success_threshold r.timeout_seconds r.now name b h)

/-- `call` never touches the breaker's configured thresholds. -/
theorem Breaker.call_preserves_config (cb : Breaker) (now : ℚ) (s : Bool) :
    (cb.call now s).1.failure_threshold = cb.failure_threshold ∧
    (cb.call now s).1.success_threshold = cb.success_threshold ∧
    (cb.call now s).1.timeout_seconds = cb.timeout_seconds := by
  simp only [Breaker.call, Breaker.check_state, Breaker.on_success,
    Breaker.on_failure, Breaker.transition_to_open,
    Breaker.transition_to_half_open, Breaker.transition_to_closed]
  split_ifs <;> simp

end CircuitBreaker

/-- C10: once `get_or_create(name, p1)` has created a breaker, any later
`get_or_create(name, p2)` — after arbitrary intervening `get_or_create`
calls — returns that same breaker, still configured with `p1`'s
`failure_threshold`, `success_threshold` and `timeout_seconds`; `p2` is
ignored, and `call` never alters those configuration fields. -/
theorem C10_get_or_create_ignores_later_params (m : Manager) (name : String)
    (ft1 st1 : Nat) (to1 now1 : ℚ) (hname : m.find? name = none) :
    (m.get_or_create name ft1 st1 to1 now1).2
      = Breaker.init name ft1 st1 to1 30 now1 ∧
    (∀ (reqs : List Request) (ft2 st2 : Nat) (to2 now2 : ℚ),
      ((m.get_or_create name ft1 st1 to1 now1).1.runRequests reqs).get_or_create
          name ft2 st2 to2 now2
        = ((m.get_or_create name ft1 st1 to1 now1).1.runRequests reqs,
           Breaker.init name ft1 st1 to1 30 now1)) ∧
    (∀ (cb : Breaker) (now : ℚ) (s : Bool),
      (cb.call now s).1.failure_threshold = cb.failure_threshold ∧
      (cb.call now s).1.success_threshold = cb.success_threshold ∧
      (cb.call now s).1.timeout_seconds = cb.timeout_seconds) := by
  have hcreated :
      (m.get_or_create name ft1 st1 to1 now1).1.find? name
        = some (Breaker.init name ft1 st1 to1 30 now1) := by
    unfold Manager.get_or_create
    rw [hname]
    exact Manager.find?_append_fresh m name _ hname
  refine ⟨?_, ?_, fun cb now s => Breaker.call_preserves_config cb now s⟩
  · unfold Manager.get_or_create
    rw [hname]
  · intro reqs ft2 st2 to2 now2
    have h2 := Manager.runRequests_preserves reqs _ name _ hcreated
    generalize hM :
      (m.get_or_create name ft1 st1 to1 now1).1.runRequests reqs = M at h2 ⊢
    unfold Manager.get_or_create
    rw [h2]

/-- Witness for C10: a breaker created with thresholds (3, 2, 45) is
returned unchanged by a later `get_or_create` with parameters
(7, 9, 99), after intervening requests. -/
theorem C10_get_or_create_ignores_later_params_witness :
    Manager.get_or_create
      (Manager.runRequests
        (Manager.get_or_create [] "gmail" 3 2 45 100).1
        [⟨"gmail", 5, 2, 60, 200⟩, ⟨"slack", 1, 1, 10, 300⟩])
      "gmail" 7 9 99 400
      = (Manager.runRequests
          (Manager.get_or_create [] "gmail" 3 2 45 100).1
          [⟨"gmail", 5, 2, 60, 200⟩, ⟨"slack", 1, 1, 10, 300⟩],
         Breaker.init "gmail" 3 2 45 30 100) :=
  (C10_get_or_create_ignores_later_params [] "gmail" 3 2 45 100 rfl).2.1
    [⟨"gmail", 5, 2, 60, 200⟩, ⟨"slack", 1, 1, 10, 300⟩] 7 9 99 400

/-! ### C2: circuit breaker lifecycle -/

namespace CircuitBreaker

open CircuitState

/-- After `n < failure_threshold` consecutive failed calls from the
initial state, the breaker is still `CLOSED` with `failure_count = n`. -/
theorem Breaker.callN_fail_record (name : String) (ft st : Nat)
    (tos hot created now : ℚ) (n : Nat) (h : n < ft) :
    (Breaker.init name ft st tos hot created).callN now false n =
      { Breaker.init name ft st tos hot created with
        failure_count := n
        last_failure_time := if n = 0 then none else some now } := by
  induction n with
  | zero => simp [Breaker.callN, Breaker.init]
  | succ n ih =>
    have hn : n < ft := Nat.lt_of_succ_lt h
    have h1 : ¬ ft ≤ n + 1 := by omega
    rw [Breaker.callN, ih hn]
    simp [Breaker.call, Breaker.check_state, Breaker.on_failure,
      Breaker.transition_to_open, Breaker.init, h1]

/-- While `HALF_OPEN` with `n < success_threshold` consecutive successes
recorded, the breaker is still `HALF_OPEN` with `success_count = n`. -/
theorem Breaker.callN_succ_record (cb : Breaker) (now : ℚ)
    (hst : cb.state = HALF_OPEN) (hsc : cb.success_count = 0)
    (n : Nat) (h : n < cb.success_threshold) :
    cb.callN now true n = { cb with success_count := n } := by
  induction n with
  | zero => rw [Breaker.callN, ← hsc]
  | succ n ih =>
    have hn : n < cb.success_threshold := Nat.lt_of_succ_lt h
    have h1 : ¬ cb.success_threshold ≤ n + 1 := by omega
    rw [Breaker.callN, ih hn]
    simp [Breaker.call, Breaker.check_state, Breaker.on_success, hst, h1]

end CircuitBreaker

/-- C2: the circuit breaker life cycle.  (1) From `CLOSED`, the state
after `n ≤ failure_threshold` consecutive failed calls is `CLOSED` while
`n < failure_threshold` and `OPEN` at exactly `failure_threshold`.
(2) While `OPEN`, a call attempted at least `timeout_seconds` after the
last failure transitions the breaker to `HALF_OPEN` and is not rejected.
(3) From entry into `HALF_OPEN` (`success_count = 0`), the state after
`n ≤ success_threshold` consecutive successful calls is `HALF_OPEN`
while `n < success_threshold` and `CLOSED` at exactly
`success_threshold`.  (4) Any failed call while `HALF_OPEN` returns the
breaker to `OPEN`. -/
theorem C2_circuit_breaker_lifecycle (name : String) (ft st : Nat)
    (tos hot created now : ℚ) (hft : 1 ≤ ft) :
    (∀ n ≤ ft, ((Breaker.init name ft st tos hot created).callN now false n).state
        = if n < ft then .CLOSED else .OPEN) ∧
    (∀ (cb : Breaker) (t now2 : ℚ), cb.state = .OPEN →
      cb.last_failure_time = some t → t ≠ 0 →
      cb.timeout_seconds ≤ now2 - t →
      cb.check_state now2 = (cb.transition_to_half_open now2, true) ∧
      (cb.check_state now2).1.state = .HALF_OPEN ∧
      (∀ b, (cb.call now2 b).2 ≠ .circuitOpenError)) ∧
    (∀ (cb : Breaker) (now3 : ℚ), cb.state = .HALF_OPEN →
      cb.success_count = 0 → 1 ≤ cb.success_threshold →
      ∀ n ≤ cb.success_threshold, (cb.callN now3 true n).state
        = if n < cb.success_threshold then .HALF_OPEN else .CLOSED) ∧
    (∀ (cb : Breaker) (now4 : ℚ), cb.state = .HALF_OPEN →
      ((cb.call now4 false).1).state = .OPEN) := by
  refine ⟨?_, ?_, ?_, ?_⟩
  · intro n hn
    rcases Nat.lt_or_ge n ft with hlt | hge
    · rw [Breaker.callN_fail_record name ft st tos hot created now n hlt,
        if_pos hlt]
      simp [Breaker.init]
    · have heq : n = ft := le_antisymm hn hge
      subst heq
      obtain ⟨m, hm⟩ : ∃ m, n = m + 1 := ⟨n - 1, by omega⟩
      subst hm
      rw [Breaker.callN,
        Breaker.callN_fail_record name (m + 1) st tos hot created now m
          (by omega)]
      simp [Breaker.call, Breaker.check_state, Breaker.on_failure,
        Breaker.transition_to_open, Breaker.init]
  · intro cb t now2 hst hlft ht hto
    have hcs : cb.check_state now2 = (cb.transition_to_half_open now2, true) := by
      simp [Breaker.check_state, Breaker.should_attempt_reset, hst, hlft, ht,
        hto]
    refine ⟨hcs, ?_, ?_⟩
    · rw [hcs]
      simp [Breaker.transition_to_half_open]
    · intro b
      cases b <;> simp [Breaker.call, hcs]
  · intro cb now3 hst hsc hthr n hn
    rcases Nat.lt_or_ge n cb.success_threshold with hlt | hge
    · rw [Breaker.callN_succ_record cb now3 hst hsc n hlt, if_pos hlt]
      exact hst
    · have heq : n = cb.success_threshold := le_antisymm hn hge
      subst heq
      obtain ⟨m, hm⟩ : ∃ m, cb.success_threshold = m + 1 :=
        ⟨cb.success_threshold - 1, by omega⟩
      rw [hm, Breaker.callN,
        Breaker.callN_succ_record cb now3 hst hsc m (by omega)]
      simp [Breaker.call, Breaker.check_state, Breaker.on_success,
        Breaker.transition_to_closed, hst, hm]
  · intro cb now4 hst
    simp [Breaker.call, Breaker.check_state, Breaker.on_failure,
      Breaker.transition_to_open, hst]

/-- Witness for C2 with thresholds (2, 2) and timeout 60: two failures
starting at `CLOSED` give `OPEN`; a call 100 seconds after the failure
probes `HALF_OPEN`; two successes from `HALF_OPEN` give `CLOSED`; one
failure from `HALF_OPEN` gives `OPEN`. -/
theorem C2_circuit_breaker_lifecycle_witness :
    (((Breaker.init "svc" 2 2 60 30 0).callN 100 false 1).state = .CLOSED ∧
     ((Breaker.init "svc" 2 2 60 30 0).callN 100 false 2).state = .OPEN) ∧
    ((((Breaker.init "svc" 2 2 60 30 0).callN 100 false 2).check_state 200).1.state
        = .HALF_OPEN) ∧
    (((((Breaker.init "svc" 2 2 60 30 0).callN 100 false 2).transition_to_half_open
        200).callN 200 true 2).state = .CLOSED) ∧
    (((((Breaker.init "svc" 2 2 60 30 0).callN 100 false 2).transition_to_half_open
        200).call 200 false).1.state = .OPEN) := by
  have h := C2_circuit_breaker_lifecycle "svc" 2 2 60 30 0 100 (by decide)
  refine ⟨⟨?_, ?_⟩, ?_, ?_, ?_⟩
  · have := h.1 1 (by decide)
    simpa using this
  · have := h.1 2 (by decide)
    simpa using this
  · exact (h.2.1 ((Breaker.init "svc" 2 2 60 30 0).callN 100 false 2) 100 200
      (by rfl) (by rfl) (by norm_num)
      (by norm_num [show ((Breaker.init "svc" 2 2 60 30 0).callN 100
        false 2).timeout_seconds = 60 from rfl])).2.1
  · exact h.2.2.1
      (((Breaker.init "svc" 2 2 60 30 0).callN 100 false 2).transition_to_half_open
        200) 200 (by rfl) (by rfl)
      (by norm_num [show ((((Breaker.init "svc" 2 2 60 30 0).callN 100
        false 2).transition_to_half_open 200)).success_threshold = 2 from rfl])
      2
      (by norm_num [show ((((Breaker.init "svc" 2 2 60 30 0).callN 100
        false 2).transition_to_half_open 200)).success_threshold = 2 from rfl])
  · exact h.2.2.2
      (((Breaker.init "svc" 2 2 60 30 0).callN 100 false 2).transition_to_half_open
        200) 200 (by decide)

/-! ### C5: middleware ordering and short-circuit -/

namespace Middleware

/-- Shifting a consecutive index range by one position. -/
theorem range_map_add_succ (k i : Nat) :
    (List.range (k + 1)).map (· + i) = i :: (List.range k).map (· + (i + 1)) := by
  rw [List.range_succ_eq_map, List.map_cons, List.map_map]
  simp only [Nat.zero_add]
  refine congrArg _ (List.map_congr_left fun x _ => ?_)
  simp only [Function.comp_apply]
  omega

/-- The chain's invocation trace is always the consecutive run of
middleware indices starting at the chain's first index. -/
theorem runFrom_trace_consecutive
    (final : String → PyDict → Except PyExc PyDict) (event : String)
    (data : PyDict) :
    ∀ (mws : List MW) (i : Nat),
      ∃ k ≤ mws.length,
        (runFrom final event data mws i).2.1 = (List.range k).map (· + i) := by
  intro mws
  induction mws with
  | nil => intro i; exact ⟨0, by simp, by simp [runFrom]⟩
  | cons mw rest ih =>
    intro i
    rcases hrec : runFrom final event data rest (i + 1) with ⟨res, tr, c⟩
    obtain ⟨k, hk, htr⟩ := ih (i + 1)
    rw [hrec] at htr
    simp only at htr
    cases hmw : mw event data with
    | shortCircuit r =>
      exact ⟨1, by simp, by simp [runFrom, hmw, List.range_succ]⟩
    | raiseExc e =>
      exact ⟨1, by simp, by simp [runFrom, hmw, List.range_succ]⟩
    | callNext =>
      refine ⟨k + 1, by simp; omega, ?_⟩
      simp [runFrom, hmw, hrec, range_map_add_succ, htr]
    | catchAll =>
      refine ⟨k + 1, by simp; omega, ?_⟩
      cases res with
      | ok r => simp [runFrom, hmw, hrec, range_map_add_succ, htr]
      | error e => simp [runFrom, hmw, hrec, range_map_add_succ, htr]

/-- If the middleware at position `p` short-circuits, no index beyond
`i + p` is ever invoked and the terminal handler runs zero times. -/
theorem runFrom_shortCircuit_blocks
    (final : String → PyDict → Except PyExc PyDict) (event : String)
    (data : PyDict) :
    ∀ (mws : List MW) (i p : Nat) (mw : MW) (r : PyDict),
      mws[p]? = some mw → mw event data = .shortCircuit r →
      (∀ j ∈ (runFrom final event data mws i).2.1, j ≤ i + p) ∧
      (runFrom final event data mws i).2.2 = 0 := by
  intro mws
  induction mws with
  | nil => intro i p mw r hget; simp at hget
  | cons mw0 rest ih =>
    intro i p mw r hget hsc
    cases p with
    | zero =>
      have hmw0 : mw0 = mw := by simpa using hget
      subst hmw0
      simp [runFrom, hsc]
    | succ p =>
      have hget' : rest[p]? = some mw := by simpa using hget
      rcases hrec : runFrom final event data rest (i + 1) with ⟨res, tr, c⟩
      have hih := ih (i + 1) p mw r hget' hsc
      rw [hrec] at hih
      simp only at hih
      cases hmw0 : mw0 event data with
      | shortCircuit r0 =>
        refine ⟨?_, by simp [runFrom, hmw0]⟩
        intro j hj
        simp [runFrom, hmw0] at hj
        omega
      | raiseExc e =>
        refine ⟨?_, by simp [runFrom, hmw0]⟩
        intro j hj
        simp [runFrom, hmw0] at hj
        omega
      | callNext =>
        refine ⟨?_, by simp [runFrom, hmw0, hrec, hih.2]⟩
        intro j hj
        simp [runFrom, hmw0, hrec] at hj
        rcases hj with hj | hj
        · omega
        · have := hih.1 j hj
          omega
      | catchAll =>
        cases res with
        | ok r1 =>
          refine ⟨?_, by simp [runFrom, hmw0, hrec, hih.2]⟩
          intro j hj
          simp [runFrom, hmw0, hrec] at hj
          rcases hj with hj | hj
          · omega
          · have := hih.1 j hj
            omega
        | error e =>
          refine ⟨?_, by simp [runFrom, hmw0, hrec, hih.2]⟩
          intro j hj
          simp [runFrom, hmw0, hrec] at hj
          rcases hj with hj | hj
          · omega
          · have := hih.1 j hj
            omega

end Middleware

/-- C5: for every middleware stack, the invocation order equals the
registration order (the trace is the consecutive index range from 0), and
a middleware at index `i` that returns a result without invoking
`call_next` prevents every middleware at an index above `i` — and the
terminal handler (call count 0) — from running. -/
theorem C5_middleware_order_and_short_circuit (mws : List MW)
    (final : String → PyDict → Except PyExc PyDict) (event : String)
    (data : PyDict) :
    (∃ k, (execute mws final event data).2.1 = List.range k) ∧
    (∀ (i : Nat) (mw : MW) (r : PyDict), mws[i]? = some mw →
      mw event data = .shortCircuit r →
      (∀ j ∈ (execute mws final event data).2.1, j ≤ i) ∧
      (execute mws final event data).2.2 = 0) := by
  constructor
  · obtain ⟨k, _, htr⟩ := runFrom_trace_consecutive final event data mws 0
    exact ⟨k, by simpa using htr⟩
  · intro i mw r hget hsc
    have h := runFrom_shortCircuit_blocks final event data mws 0 i mw r hget hsc
    simpa using h

/-- Witness for C5 on the stack [pass, block, pass]: every invoked index
is at most 1, and the terminal handler never runs. -/
theorem C5_middleware_order_and_short_circuit_witness :
    (∀ j ∈ (execute [mwPassDemo, mwBlockDemo, mwPassDemo] finalDemo
        "t" []).2.1, j ≤ 1) ∧
    (execute [mwPassDemo, mwBlockDemo, mwPassDemo] finalDemo "t" []).2.2 = 0 :=
  (C5_middleware_order_and_short_circuit
    [mwPassDemo, mwBlockDemo, mwPassDemo] finalDemo "t" []).2
    1 mwBlockDemo [] rfl rfl

/-! ### C6: error-handling middleware position -/

/-- Counterexample to C6 as stated: in `create_production_stack` the
error-handling middleware is not the outermost wrapper (index 0, the
first middleware added); it is added third, wrapped by the logging and
metrics middlewares. -/
theorem C6_counterexample :
    production_stack_classes[0]? ≠ some MiddlewareClass.errorHandling ∧
    production_stack_classes[0]? = some MiddlewareClass.logging ∧
    production_stack_classes[2]? = some MiddlewareClass.errorHandling := by
  decide

namespace Middleware

/-- A pass-through middleware does not change the chain's result. -/
theorem runFrom_cons_callNext (final : String → PyDict → Except PyExc PyDict)
    (event : String) (data : PyDict) (mw : MW) (rest : List MW) (i : Nat)
    (h : mw event data = .callNext) :
    (runFrom final event data (mw :: rest) i).1
      = (runFrom final event data rest (i + 1)).1 := by
  rcases hrec : runFrom final event data rest (i + 1) with ⟨res, tr, c⟩
  simp [runFrom, h, hrec]

/-- A catching middleware makes the chain's result a normal return. -/
theorem runFrom_cons_catchAll (final : String → PyDict → Except PyExc PyDict)
    (event : String) (data : PyDict) (mw : MW) (rest : List MW) (i : Nat)
    (h : mw event data = .catchAll) :
    ∃ r, (runFrom final event data (mw :: rest) i).1 = .ok r := by
  rcases hrec : runFrom final event data rest (i + 1) with ⟨res, tr, c⟩
  cases res with
  | ok r => exact ⟨r, by simp [runFrom, h, hrec]⟩
  | error e => exact ⟨failure_payload e event, by simp [runFrom, h, hrec]⟩

end Middleware

/-- C6 (amended): in the production stack the error-handling middleware
sits third, inside logging and metrics; every exception raised below it —
by the rate-limit or caching middleware or the terminal handler — is
converted into the structured failure payload
`{success: false, error, error_type, event}`, and since the two
middlewares outside it pass results through without raising, no exception
ever propagates out of the stack: `execute` always returns a normal
result.  With fresh (startup) rate-limit and cache state and a terminal
handler that raises, the result is exactly the failure payload, after all
five middlewares ran and the terminal handler ran once. -/
theorem C6_error_handling_containment :
    (∀ (request_counts : List (PyVal × List ℚ))
       (cache : List (String × PyDict × ℚ)) (payloadHash : PyDict → Int)
       (now : ℚ) (final : String → PyDict → Except PyExc PyDict)
       (event : String) (data : PyDict),
      ∃ r, (execute (create_production_stack request_counts cache payloadHash
        now) final event data).1 = .ok r) ∧
    (∀ (payloadHash : PyDict → Int) (now : ℚ) (e : PyExc) (event : String)
       (data : PyDict),
      execute (create_production_stack [] [] payloadHash now)
          (fun _ _ => .error e) event data
        = (.ok (failure_payload e event), [0, 1, 2, 3, 4], 1)) := by
  constructor
  · intro request_counts cache payloadHash now final event data
    have h1 : (execute (create_production_stack request_counts cache
        payloadHash now) final event data).1
        = (runFrom final event data
            [ErrorHandlingMiddleware.step,
             RateLimitMiddleware.step 1000 60 request_counts now,
             CachingMiddleware.step 300 cache payloadHash now] 2).1 := by
      show (runFrom final event data
        [LoggingMiddleware.step, MetricsMiddleware.step,
         ErrorHandlingMiddleware.step,
         RateLimitMiddleware.step 1000 60 request_counts now,
         CachingMiddleware.step 300 cache payloadHash now] 0).1 = _
      rw [runFrom_cons_callNext final event data LoggingMiddleware.step _ 0 rfl,
        runFrom_cons_callNext final event data MetricsMiddleware.step _ 1 rfl]
    obtain ⟨r, hr⟩ := runFrom_cons_catchAll final event data
      ErrorHandlingMiddleware.step
      [RateLimitMiddleware.step 1000 60 request_counts now,
       CachingMiddleware.step 300 cache payloadHash now] 2 rfl
    exact ⟨r, h1.trans hr⟩
  · intro payloadHash now e event data
    rfl

/-! ### C7: bus isolation -/

namespace EventBus

/-- `_safe_handler_call` records exactly one invocation of its handler,
whatever the handler does. -/
theorem safe_handler_call_trace (behaviour : HandlerBehaviour) (h : Nat)
    (d : PyDict) : (safe_handler_call behaviour h d).1 = [h] := by
  cases hb : behaviour h d <;> simp [safe_handler_call, hb]

/-- Flattening singleton invocation records recovers the handler list. -/
theorem flatten_map_singleton (l : List Nat) :
    (l.map (fun h => [h])).flatten = l := by
  induction l <;> simp [*]

/-- Dispatching one event on a subscribed topic invokes exactly the
topic's handlers, in order, regardless of handler behaviour. -/
theorem dispatch_eq_handlers (subs : Subscribers)
    (behaviour : HandlerBehaviour) (t : String) (hs : List Nat) (d : PyDict)
    (hsubs : subs.handlers? t = some hs) :
    dispatch subs behaviour (t, d) = hs := by
  simp [dispatch, hsubs, safe_handler_call_trace, flatten_map_singleton]

/-- Each handler subscribed (once) to a topic is invoked exactly once
per event delivered on that topic. -/
theorem process_events_count (subs : Subscribers)
    (behaviour : HandlerBehaviour) (t : String) (hs : List Nat) (h : Nat)
    (hsubs : subs.handlers? t = some hs) (hmem : h ∈ hs)
    (hnodup : hs.Nodup) :
    ∀ queue : List (String × PyDict), (∀ ev ∈ queue, ev.1 = t) →
      (process_events subs behaviour queue).count h = queue.length := by
  intro queue
  induction queue with
  | nil => intro _; simp [process_events]
  | cons ev rest ih =>
    intro hq
    have hev : ev.1 = t := hq ev (by simp)
    have hd : dispatch subs behaviour ev = hs := by
      rcases ev with ⟨tp, d⟩
      simp only at hev
      rw [hev]
      exact dispatch_eq_handlers subs behaviour t hs d hsubs
    have hone : hs.count h = 1 := List.count_eq_one_of_mem hnodup hmem
    have hrest := ih (fun e he => hq e (by simp [he]))
    simp [process_events, List.count_append, hd, hone] at hrest ⊢
    omega

end EventBus

/-- C7: for a topic with at least two subscribed handlers, one of which
raises on every invocation, every other handler of that topic is still
invoked exactly once per delivered event, and the dispatch loop continues
across subsequent events (processing a longer queue extends the
invocation record of the shorter one). -/
theorem C7_bus_isolation (subs : Subscribers)
    (behaviour : HandlerBehaviour) (t : String) (hs : List Nat)
    (faulty other : Nat) (exc : PyExc) (queue : List (String × PyDict))
    (hsubs : subs.handlers? t = some hs)
    (hfmem : faulty ∈ hs) (homem : other ∈ hs) (hne : other ≠ faulty)
    (hnodup : hs.Nodup)
    (hfault : ∀ d, behaviour faulty d = .error exc)
    (hq : ∀ ev ∈ queue, ev.1 = t) :
    (process_events subs behaviour queue).count other = queue.length ∧
    (∀ q2, process_events subs behaviour (queue ++ q2)
      = process_events subs behaviour queue
        ++ process_events subs behaviour q2) := by
  refine ⟨process_events_count subs behaviour t hs other hsubs homem hnodup
    queue hq, ?_⟩
  intro q2
  simp [process_events]

/-- Witness for C7: handler 0 always raises, yet handler 1 is invoked
once per each of the two delivered events. -/
theorem C7_bus_isolation_witness :
    (process_events [("t", [0, 1])] behaviourDemo
      [("t", []), ("t", [])]).count 1 = 2 :=
  (C7_bus_isolation [("t", [0, 1])] behaviourDemo "t" [0, 1] 0 1
    ⟨"RuntimeError", "boom"⟩ [("t", []), ("t", [])] rfl (by simp) (by simp)
    (by decide) (by decide) (fun d => rfl) (by simp)).1

/-! ### C3: coordinator sequencing -/

namespace Coordinator

/-- Inserting a fresh key into the shared-state dict appends it. -/
theorem dictSet_fresh {δ : Type} (s : List (String × δ)) (k : String)
    (v : δ) (h : ∀ p ∈ s, p.1 ≠ k) : dictSet s k v = s ++ [(k, v)] := by
  have hany : s.any (fun p => p.1 == k) = false := by
    simp only [List.any_eq_false, beq_iff_eq]
    exact h
  simp [dictSet, hany]

/-- Appending one executed index then a shifted consecutive range gives a
longer consecutive range. -/
theorem trace_shift (trace : List Nat) (i k : Nat) :
    (trace ++ [i]) ++ (List.range k).map (· + (i + 1))
      = trace ++ (List.range (k + 1)).map (· + i) := by
  rw [List.append_assoc, Middleware.range_map_add_succ]
  simp

/-- An all-success run completes the command, extends the shared state by
one (id, result) entry per sub-task, and executes every index in order. -/
theorem runLoop_all_success {δ : Type} (outcome : Nat → ExecOutcome δ)
    (d : Nat → δ) :
    ∀ (rest : List (SubTask δ)) (cmd : Command δ) (i : Nat)
      (done : List (SubTask δ)) (trace : List Nat),
      (∀ p, p < rest.length → outcome (i + p) = .success (d (i + p))) →
      (rest.map SubTask.id).Nodup →
      (∀ stk ∈ rest, ∀ q ∈ cmd.state, q.1 ≠ stk.id) →
      (runLoop outcome cmd i done trace rest).1.status = "completed" ∧
      (runLoop outcome cmd i done trace rest).1.state
        = cmd.state ++ expectedStateFrom d i rest ∧
      (runLoop outcome cmd i done trace rest).2
        = trace ++ (List.range rest.length).map (· + i) := by
  intro rest
  induction rest with
  | nil =>
    intro cmd i done trace _ _ _
    simp [runLoop, expectedStateFrom]
  | cons stk rest ih =>
    intro cmd i done trace hout hnodup hfresh
    have h0 : outcome i = .success (d i) := by
      have h := hout 0 (by simp)
      simpa using h
    have hfreshhead : ∀ q ∈ cmd.state, q.1 ≠ stk.id := hfresh stk (by simp)
    have hset : dictSet cmd.state stk.id (d i) = cmd.state ++ [(stk.id, d i)] :=
      dictSet_fresh _ _ _ hfreshhead
    have hnd : (∀ x ∈ rest, ¬ x.id = stk.id) ∧ (rest.map SubTask.id).Nodup := by
      simpa using hnodup
    have hout' : ∀ p, p < rest.length →
        outcome ((i + 1) + p) = .success (d ((i + 1) + p)) := by
      intro p hp
      have h := hout (p + 1) (by simpa using Nat.succ_lt_succ hp)
      have e : i + (p + 1) = (i + 1) + p := by omega
      rwa [e] at h
    have hfresh' : ∀ st2 ∈ rest, ∀ q ∈ cmd.state ++ [(stk.id, d i)],
        q.1 ≠ st2.id := by
      intro st2 hst2 q hq
      rcases List.mem_append.mp hq with hq | hq
      · exact hfresh st2 (by simp [hst2]) q hq
      · have hq' : q = (stk.id, d i) := by simpa using hq
        subst hq'
        show stk.id ≠ st2.id
        intro hcontra
        exact hnd.1 st2 hst2 hcontra.symm
    have hih := ih
      { cmd with current_step := i, state := dictSet cmd.state stk.id (d i) }
      (i + 1)
      (done ++ [{ stk with status := "completed", result := some (d i) }])
      (trace ++ [i]) hout' hnd.2 (by simpa [hset] using hfresh')
    refine ⟨?_, ?_, ?_⟩
    · rw [show (runLoop outcome cmd i done trace (stk :: rest))
        = runLoop outcome
            { cmd with current_step := i, state := dictSet cmd.state stk.id (d i) }
            (i + 1)
            (done ++ [{ stk with status := "completed", result := some (d i) }])
            (trace ++ [i]) rest from by simp [runLoop, h0]]
      exact hih.1
    · rw [show (runLoop outcome cmd i done trace (stk :: rest))
        = runLoop outcome
            { cmd with current_step := i, state := dictSet cmd.state stk.id (d i) }
            (i + 1)
            (done ++ [{ stk with status := "completed", result := some (d i) }])
            (trace ++ [i]) rest from by simp [runLoop, h0]]
      rw [hih.2.1]
      simp [hset, expectedStateFrom]
    · rw [show (runLoop outcome cmd i done trace (stk :: rest))
        = runLoop outcome
            { cmd with current_step := i, state := dictSet cmd.state stk.id (d i) }
            (i + 1)
            (done ++ [{ stk with status := "completed", result := some (d i) }])
            (trace ++ [i]) rest from by simp [runLoop, h0]]
      rw [hih.2.2]
      simp only [List.length_cons]
      exact trace_shift trace i rest.length

/-- A first failure at relative position `k` fails the command and stops
execution right there: the executed indices are exactly the first `k + 1`. -/
theorem runLoop_first_failure {δ : Type} (outcome : Nat → ExecOutcome δ)
    (err : String) :
    ∀ (rest : List (SubTask δ)) (k : Nat) (cmd : Command δ) (i : Nat)
      (done : List (SubTask δ)) (trace : List Nat),
      k < rest.length →
      (∀ p, p < k → ∃ dp, outcome (i + p) = .success dp) →
      outcome (i + k) = .failure err →
      (runLoop outcome cmd i done trace rest).1.status = "failed" ∧
      (runLoop outcome cmd i done trace rest).2
        = trace ++ (List.range (k + 1)).map (· + i) := by
  intro rest
  induction rest with
  | nil =>
    intro k cmd i done trace hk
    simp at hk
  | cons stk rest ih =>
    intro k cmd i done trace hk hsucc hfail
    cases k with
    | zero =>
      have h0 : outcome i = .failure err := by simpa using hfail
      constructor
      · simp [runLoop, h0]
      · simp [runLoop, h0, List.range_succ]
    | succ k =>
      obtain ⟨d0, h0⟩ := hsucc 0 (by omega)
      have h0' : outcome i = .success d0 := by simpa using h0
      have hsucc' : ∀ p, p < k → ∃ dp, outcome ((i + 1) + p) = .success dp := by
        intro p hp
        obtain ⟨dp, hdp⟩ := hsucc (p + 1) (by omega)
        refine ⟨dp, ?_⟩
        have e : i + (p + 1) = (i + 1) + p := by omega
        rwa [e] at hdp
      have hfail' : outcome ((i + 1) + k) = .failure err := by
        have e : i + (k + 1) = (i + 1) + k := by omega
        rwa [e] at hfail
      have hih := ih k
        { cmd with current_step := i, state := dictSet cmd.state stk.id d0 }
        (i + 1)
        (done ++ [{ stk with status := "completed", result := some d0 }])
        (trace ++ [i]) (by simpa using Nat.lt_of_succ_lt_succ hk) hsucc' hfail'
      constructor
      · rw [show (runLoop outcome cmd i done trace (stk :: rest))
          = runLoop outcome
              { cmd with current_step := i, state := dictSet cmd.state stk.id d0 }
              (i + 1)
              (done ++ [{ stk with status := "completed", result := some d0 }])
              (trace ++ [i]) rest from by simp [runLoop, h0']]
        exact hih.1
      · rw [show (runLoop outcome cmd i done trace (stk :: rest))
          = runLoop outcome
              { cmd with current_step := i, state := dictSet cmd.state stk.id d0 }
              (i + 1)
              (done ++ [{ stk with status := "completed", result := some d0 }])
              (trace ++ [i]) rest from by simp [runLoop, h0']]
        rw [hih.2]
        exact trace_shift trace i (k + 1)

end Coordinator

/-- C3: if the sub-task at index `k` is the first to fail, the command
ends `"failed"` and the executed sub-task indices are exactly `0..k` —
no index above `k` is ever executed; if every sub-task succeeds, the
command ends `"completed"`, every index is executed in order, and the
shared state holds exactly one entry per sub-task, keyed by that
sub-task's id and holding its result. -/
theorem C3_coordinator_sequencing {δ : Type} (outcome : Nat → ExecOutcome δ)
    (cmd : Command δ) :
    (∀ (k : Nat) (err : String), k < cmd.sub_tasks.length →
      (∀ p, p < k → ∃ dp, outcome p = .success dp) →
      outcome k = .failure err →
      (execute_multi_step outcome cmd).1.status = "failed" ∧
      (execute_multi_step outcome cmd).2 = List.range (k + 1) ∧
      (∀ j ∈ (execute_multi_step outcome cmd).2, j ≤ k)) ∧
    (∀ d : Nat → δ,
      (∀ p, p < cmd.sub_tasks.length → outcome p = .success (d p)) →
      (cmd.sub_tasks.map SubTask.id).Nodup →
      cmd.state = [] →
      (execute_multi_step outcome cmd).1.status = "completed" ∧
      (execute_multi_step outcome cmd).1.state
        = expectedStateFrom d 0 cmd.sub_tasks ∧
      (execute_multi_step outcome cmd).2
        = List.range cmd.sub_tasks.length) := by
  constructor
  · intro k err hk hsucc hfail
    have h := runLoop_first_failure outcome err cmd.sub_tasks k
      { cmd with status := "executing" } 0 [] [] hk
      (fun p hp => by simpa using hsucc p hp) (by simpa using hfail)
    have htr : (execute_multi_step outcome cmd).2 = List.range (k + 1) := by
      rw [execute_multi_step, h.2]
      simp
    refine ⟨h.1, htr, ?_⟩
    intro j hj
    rw [htr] at hj
    have := List.mem_range.mp hj
    omega
  · intro d hall hnodup hstate
    have h := runLoop_all_success outcome d cmd.sub_tasks
      { cmd with status := "executing" } 0 [] []
      (fun p hp => by simpa using hall p hp) hnodup
      (by simp [hstate])
    refine ⟨h.1, ?_, ?_⟩
    · rw [execute_multi_step, h.2.1]
      simp [hstate]
    · rw [execute_multi_step, h.2.2]
      simp

/-- Witness for C3 on a three-sub-task command: with a failure at index
1 the command fails having executed exactly indices 0 and 1; with all
successes it completes with one state entry per sub-task. -/
theorem C3_coordinator_sequencing_witness :
    ((execute_multi_step
        (fun p => if p < 1 then .success "r" else .failure "boom")
        ⟨"cmd_1", "do things",
         [⟨"subtask_0", "fetch", "gmail", none, "pending", none, none⟩,
          ⟨"subtask_1", "send", "slack", some "subtask_0", "pending", none, none⟩,
          ⟨"subtask_2", "notify", "notification", some "subtask_1", "pending",
            none, none⟩], 0, [], "pending", none⟩).1.status = "failed" ∧
     (execute_multi_step
        (fun p => if p < 1 then .success "r" else .failure "boom")
        ⟨"cmd_1", "do things",
         [⟨"subtask_0", "fetch", "gmail", none, "pending", none, none⟩,
          ⟨"subtask_1", "send", "slack", some "subtask_0", "pending", none, none⟩,
          ⟨"subtask_2", "notify", "notification", some "subtask_1", "pending",
            none, none⟩], 0, [], "pending", none⟩).2 = List.range 2) ∧
    ((execute_multi_step (fun p => ExecOutcome.success (toString p))
        ⟨"cmd_1", "do things",
         [⟨"subtask_0", "fetch", "gmail", none, "pending", none, none⟩,
          ⟨"subtask_1", "send", "slack", some "subtask_0", "pending", none, none⟩,
          ⟨"subtask_2", "notify", "notification", some "subtask_1", "pending",
            none, none⟩], 0, [], "pending", none⟩).1.status = "completed" ∧
     (execute_multi_step (fun p => ExecOutcome.success (toString p))
        ⟨"cmd_1", "do things",
         [⟨"subtask_0", "fetch", "gmail", none, "pending", none, none⟩,
          ⟨"subtask_1", "send", "slack", some "subtask_0", "pending", none, none⟩,
          ⟨"subtask_2", "notify", "notification", some "subtask_1", "pending",
            none, none⟩], 0, [], "pending", none⟩).1.state
       = expectedStateFrom (fun p => toString p) 0
          [⟨"subtask_0", "fetch", "gmail", none, "pending", none, none⟩,
           ⟨"subtask_1", "send", "slack", some "subtask_0", "pending", none, none⟩,
           ⟨"subtask_2", "notify", "notification", some "subtask_1", "pending",
             none, none⟩]) := by
  constructor
  · have h := (C3_coordinator_sequencing
      (fun p => if p < 1 then ExecOutcome.success "r" else .failure "boom")
      ⟨"cmd_1", "do things",
       [⟨"subtask_0", "fetch", "gmail", none, "pending", none, none⟩,
        ⟨"subtask_1", "send", "slack", some "subtask_0", "pending", none, none⟩,
        ⟨"subtask_2", "notify", "notification", some "subtask_1", "pending",
          none, none⟩], 0, [], "pending", none⟩).1 1 "boom" (by decide)
      (fun p hp => ⟨"r", by interval_cases p <;> rfl⟩) rfl
    exact ⟨h.1, h.2.1⟩
  · have h := (C3_coordinator_sequencing
      (fun p => ExecOutcome.success (toString p))
      ⟨"cmd_1", "do things",
       [⟨"subtask_0", "fetch", "gmail", none, "pending", none, none⟩,
        ⟨"subtask_1", "send", "slack", some "subtask_0", "pending", none, none⟩,
        ⟨"subtask_2", "notify", "notification", some "subtask_1", "pending",
          none, none⟩], 0, [], "pending", none⟩).2
      (fun p => toString p) (fun p _ => rfl) (by decide) rfl
    exact ⟨h.1, h.2.1⟩

/-! ### C8: intent-parse fallback -/

/-- Counterexample to C8 as stated: for the response
`{"confidence": null}` the parse raises `TypeError` out of
`understand_intent` (`float(None)` is not caught — the `except` clause
covers only `json.JSONDecodeError`), instead of returning an `Intent`. -/
theorem C8_counterexample :
    understand_intent_parse "hi" "\x7b\"confidence\": null\x7d"
      = .error ⟨"TypeError",
          "float() argument must be a string or a real number, not NoneType"⟩ ∧
    (understand_intent_parse "hi" "\x7b\"confidence\": null\x7d").toOption
      = none := by
  constructor <;> rfl

/-- C8 (amended): `understand_intent`'s parse never propagates a
JSON-decoding failure — when the response holds no brace-delimited
region or `json.loads` fails on it, the result is the fallback
`Intent(action="unknown", confidence=0.1)`; when the region decodes to an
object whose `confidence` field converts with `float`, an `Intent` built
from the object is returned; but when that `float` conversion fails, the
conversion error propagates to the caller. -/
theorem C8_intent_parse_fallback (u r : String) :
    (¬ (pyFindChar r.toList braceOpen ≠ -1 ∧
        pyRFindChar r.toList braceClose + 1 > pyFindChar r.toList braceOpen) →
      understand_intent_parse u r = .ok (fallbackIntent u)) ∧
    ((pyFindChar r.toList braceOpen ≠ -1 ∧
        pyRFindChar r.toList braceClose + 1 > pyFindChar r.toList braceOpen) →
      (∀ exc, pyJsonLoads (String.mk (pySlice r.toList
          (pyFindChar r.toList braceOpen)
          (pyRFindChar r.toList braceClose + 1))) = .error exc →
        understand_intent_parse u r = .ok (fallbackIntent u)) ∧
      (∀ flds c, pyJsonLoads (String.mk (pySlice r.toList
          (pyFindChar r.toList braceOpen)
          (pyRFindChar r.toList braceClose + 1))) = .ok (.obj flds) →
        pyFloat (jsonObjGet flds "confidence" (.num (1/2))) = .ok c →
        understand_intent_parse u r
          = .ok { action := jsonObjGet flds "action" (.str "unknown")
                  target := jsonObjGet flds "target" (.str "unknown")
                  parameters := jsonObjGet flds "parameters" (.obj [])
                  confidence := c
                  raw_command := u }) ∧
      (∀ flds e, pyJsonLoads (String.mk (pySlice r.toList
          (pyFindChar r.toList braceOpen)
          (pyRFindChar r.toList braceClose + 1))) = .ok (.obj flds) →
        pyFloat (jsonObjGet flds "confidence" (.num (1/2))) = .error e →
        understand_intent_parse u r = .error e)) := by
  constructor
  · intro hno
    rw [understand_intent_parse, if_neg hno]
  · intro hyes
    refine ⟨?_, ?_, ?_⟩
    · intro exc hloads
      rw [understand_intent_parse, if_pos hyes]
      simp only [hloads]
    · intro flds c hloads hfloat
      rw [understand_intent_parse, if_pos hyes]
      simp only [hloads, hfloat]
    · intro flds e hloads hfloat
      rw [understand_intent_parse, if_pos hyes]
      simp only [hloads, hfloat]

/-- Witness for C8 (amended): a brace-free response yields the fallback
intent, and the decoded object `{"confidence": null}` makes the `float`
conversion error propagate. -/
theorem C8_intent_parse_fallback_witness :
    understand_intent_parse "hi" "no json here" = .ok (fallbackIntent "hi") ∧
    understand_intent_parse "hi" "\x7b\"confidence\": null\x7d"
      = .error ⟨"TypeError",
          "float() argument must be a string or a real number, not NoneType"⟩ := by
  constructor
  · exact (C8_intent_parse_fallback "hi" "no json here").1 (by decide)
  · exact ((C8_intent_parse_fallback "hi"
      "\x7b\"confidence\": null\x7d").2 (by decide)).2.2
      [("confidence", JVal.null)]
      ⟨"TypeError",
        "float() argument must be a string or a real number, not NoneType"⟩
      (by rfl) (by rfl)

end WorkEase
